import Mathlib

/-!
Shallow embedding of the fancam organizer pipeline from
src/fancam_organizer.py: frame sampling, largest-face selection,
video fingerprint aggregation, DBSCAN clustering and the folder
assignment step.  Python floats are idealized as exact rationals;
face embedding vectors carry rational entries; the L2-normalized
fingerprint lives over the reals.  The external collaborators
(video decoder, face detector, sklearn DBSCAN) are modelled by
explicit parameters and by a faithful rendering of the library
behavior the script relies on.
-/

namespace Fancam

/-- Python int() applied to a rational value: truncation toward zero. -/
def pyint (q : ℚ) : ℤ := if 0 ≤ q then ⌊q⌋ else ⌈q⌉

/-- Configuration constant FRAMES_TO_EXTRACT = 20 (line 24). -/
def FRAMES_TO_EXTRACT : ℕ := 20

/-- Configuration constant SKIP_PERCENT = 0.10 (line 25). -/
def SKIP_PERCENT : ℚ := 1 / 10

/-- Python range(a, b) over the integers. -/
def intRange (a b : ℤ) : List ℤ := (List.range (b - a).toNat).map (fun (i : ℕ) => a + (i : ℤ))

/-- Frame index computation of extract_frames (lines 56-65):
start and end of the usable interior, dense fallback when the usable
span is below the requested count, otherwise evenly spaced indices
int(start + i * step) with step = usable / num (exact rationals in
place of Python floats). -/
def frameIndices (totalFrames numFrames : ℕ) (skip : ℚ) : List ℤ :=
  let start := pyint ((totalFrames : ℚ) * skip)
  let stop := pyint ((totalFrames : ℚ) * (1 - skip))
  let usable := stop - start
  if usable < (numFrames : ℤ) then
    intRange start stop
  else
    let step : ℚ := (usable : ℚ) / (numFrames : ℚ)
    (List.range numFrames).map (fun (i : ℕ) => pyint ((start : ℚ) + (i : ℚ) * step))

/-- Sampler written from the words of the specification, for the
refinement claim C3: start = floor(totalFrames * skip),
end = floor(totalFrames * (1 - skip)); every integer in [start, end)
when the span is shorter than the sample count, otherwise
floor(start + i * (end - start) / sampleCount) for i below sampleCount. -/
def specSample (totalFrames numFrames : ℕ) (skip : ℚ) : List ℤ :=
  let start := ⌊(totalFrames : ℚ) * skip⌋
  let stop := ⌊(totalFrames : ℚ) * (1 - skip)⌋
  if stop - start < (numFrames : ℤ) then
    intRange start stop
  else
    (List.range numFrames).map
      (fun (i : ℕ) => ⌊(start : ℚ) + (i : ℚ) * (((stop - start : ℤ) : ℚ) / (numFrames : ℚ))⌋)

/-- Abstract handle produced by the video decode collaborator
(cv2.VideoCapture): whether it opens, its reported frame count and a
frame reader that may fail on an index (cap.read, lines 70-71). -/
structure Video (Frame : Type) where
  canOpen : Bool
  totalFrames : ℕ
  readFrame : ℤ → Option Frame

/-- The two ValueError cases raised by extract_frames
(lines 46-47 and 51-53). -/
inductive ExtractError where
  | unreadable
  | insufficientFrames
deriving DecidableEq

/-- extract_frames (lines 39-77): raises on an unopenable video,
raises when total_frames is below 10, otherwise reads the computed
frame indices, keeping the frames whose read succeeds. -/
def extract_frames {Frame : Type} (v : Video Frame) : Except ExtractError (List Frame) :=
  if v.canOpen = false then .error .unreadable
  else if v.totalFrames < 10 then .error .insufficientFrames
  else .ok ((frameIndices v.totalFrames FRAMES_TO_EXTRACT SKIP_PERCENT).filterMap v.readFrame)

/-- Embedding vector with rational entries (a Python float vector). -/
abbrev QVec (d : ℕ) := Fin d → ℚ

/-- Fingerprint vector over the reals (the L2 normalization divides
by a square root). -/
abbrev RVec (d : ℕ) := Fin d → ℝ

/-- The facial_area record of one DeepFace detection. -/
structure FacialArea where
  x : ℤ
  y : ℤ
  w : ℤ
  h : ℤ
deriving DecidableEq

/-- One DeepFace detection: bounding box and embedding vector. -/
structure FaceResult (d : ℕ) where
  facial_area : FacialArea
  embedding : QVec d
deriving DecidableEq

/-- Bounding box area w * h used as the selection key (line 102). -/
def faceArea {d : ℕ} (r : FaceResult d) : ℤ := r.facial_area.w * r.facial_area.h

/-- Outcome of one DeepFace.represent call on a frame: either an
exception or a list of detections. -/
inductive DetectOutcome (d : ℕ) where
  | failure
  | results (rs : List (FaceResult d))
deriving DecidableEq

/-- Python max(results, key=area) keeps the first element and
replaces it only on a strictly larger key, so the first maximum wins;
for a single detection the code takes results[0], which coincides. -/
def pickLargest {d : ℕ} (b : FaceResult d) (rs : List (FaceResult d)) : FaceResult d :=
  rs.foldl (fun best x => if faceArea best < faceArea x then x else best) b

/-- get_largest_face_embedding (lines 80-111): a raised exception and
an empty detection list both give None; otherwise the embedding of
the largest detection. -/
def get_largest_face_embedding {Frame : Type} {d : ℕ}
    (detect : Frame → DetectOutcome d) (frame : Frame) : Option (QVec d) :=
  match detect frame with
  | .failure => none
  | .results [] => none
  | .results (r :: rs) => some (pickLargest r rs).embedding

/-- The frames the sampler hands to the per-frame loop: none when
extract_frames raised, the extracted list otherwise. -/
def sampledFrames {Frame : Type} (v : Video Frame) : List Frame :=
  match extract_frames v with
  | .error _ => []
  | .ok frames => frames

/-- The non-absent embeddings collected by the loop of
compute_video_fingerprint (lines 124-129). -/
def collectedEmbeddings {Frame : Type} {d : ℕ}
    (detect : Frame → DetectOutcome d) (v : Video Frame) : List (QVec d) :=
  (sampledFrames v).filterMap (get_largest_face_embedding detect)

/-- np.mean(embeddings, axis=0): elementwise arithmetic mean. -/
def meanVec {d : ℕ} (l : List (QVec d)) : QVec d :=
  fun i => (l.map (fun v => v i)).sum / (l.length : ℚ)

/-- Sum of squared entries; np.linalg.norm is its square root. -/
def sqNorm {d : ℕ} (v : QVec d) : ℚ := ∑ i, v i ^ 2

/-- Lines 138-140: divide by the L2 norm when it is positive, keep
the vector verbatim otherwise.  The Python test norm > 0 is
equivalent to the rational test 0 < sqNorm. -/
noncomputable def normalizeVec {d : ℕ} (v : QVec d) : RVec d :=
  if 0 < sqNorm v then (fun i => (v i : ℝ) / Real.sqrt ((sqNorm v : ℝ)))
  else (fun i => (v i : ℝ))

/-- Lines 131-142: absent on an empty embedding list, otherwise the
normalized mean vector. -/
noncomputable def buildFromEmbeddings {d : ℕ} (embeddings : List (QVec d)) : Option (RVec d) :=
  match embeddings with
  | [] => none
  | _ :: _ => some (normalizeVec (meanVec embeddings))

/-- compute_video_fingerprint (lines 114-142): a ValueError from
extract_frames is caught and maps to None; otherwise the per-frame
embeddings are collected and aggregated. -/
noncomputable def compute_video_fingerprint {Frame : Type} {d : ℕ}
    (detect : Frame → DetectOutcome d) (v : Video Frame) : Option (RVec d) :=
  match extract_frames v with
  | .error _ => none
  | .ok frames => buildFromEmbeddings (frames.filterMap (get_largest_face_embedding detect))

/-- L2 norm of a real vector. -/
noncomputable def norm2R {d : ℕ} (v : RVec d) : ℝ := Real.sqrt (∑ i, v i ^ 2)

/-- Decidable form of the sklearn cosine neighborhood test
1 - dot(x, y) / (norm x * norm y) <= eps, obtained by sign analysis
and squaring, so no real square root is needed.  A zero-norm vector
follows the sklearn convention (rows with zero norm are left as the
zero vector by the normalizer, giving similarity 0, distance 1). -/
def cosNeighbor {d : ℕ} (eps : ℚ) (x y : QVec d) : Bool :=
  let dot := ∑ i, x i * y i
  let sx := ∑ i, x i ^ 2
  let sy := ∑ i, y i ^ 2
  let c := 1 - eps
  if sx = 0 ∨ sy = 0 then decide (c ≤ 0)
  else if 0 < c then decide (0 ≤ dot) && decide (c ^ 2 * (sx * sy) ≤ dot ^ 2)
  else decide (0 ≤ dot) || decide (dot ^ 2 ≤ c ^ 2 * (sx * sy))

/-- Radius neighborhoods over the point list: for every index the
list of indices (the point itself included) within the radius. -/
def neighborhoodsOf {d : ℕ} (pts : List (QVec d)) (nb : QVec d → QVec d → Bool) :
    List (List ℕ) :=
  (List.range pts.length).map (fun i =>
    (List.range pts.length).filter (fun j =>
      nb (pts.getD i (fun _ => 0)) (pts.getD j (fun _ => 0))))

/-- Core point test: neighborhood size at least min_samples. -/
def isCorePt (neigh : List (List ℕ)) (minSamples : ℕ) (i : ℕ) : Bool :=
  minSamples ≤ (neigh.getD i []).length

/-- One body execution of the sklearn dbscan_inner inner loop at the
current point: label it when it is still unlabeled and, when it is a
core point, push its still-unlabeled neighbors (in reverse, so that
popping the head of the list matches the last-in-first-out order of
the sklearn stack). -/
def dfsStep (neigh : List (List ℕ)) (core : ℕ → Bool) (labelNum : ℤ)
    (labels : List ℤ) (i : ℕ) (stack : List ℕ) : List ℤ × List ℕ :=
  if labels.getD i 0 = -1 then
    let labels1 := labels.set i labelNum
    if core i then
      (labels1, (((neigh.getD i []).filter (fun v => labels1.getD v 0 = -1)).reverse) ++ stack)
    else (labels1, stack)
  else (labels, stack)

/-- The depth-first expansion of one cluster, following the sklearn
dbscan_inner loop: run the body, stop when the stack empties,
otherwise pop and continue.  The fuel argument strictly bounds the
number of stack pops; the caller passes more fuel than pushes can
ever happen, so the loop always terminates by emptying the stack. -/
def dfsLoop (neigh : List (List ℕ)) (core : ℕ → Bool) (labelNum : ℤ) :
    ℕ → List ℤ → ℕ → List ℕ → List ℤ
  | 0, labels, _, _ => labels
  | fuel + 1, labels, i, stack =>
    match dfsStep neigh core labelNum labels i stack with
    | (labels2, []) => labels2
    | (labels2, j :: rest) => dfsLoop neigh core labelNum fuel labels2 j rest

/-- The outer dbscan_inner loop: scan the points in index order, seed
a new cluster at every still-unlabeled core point. -/
def dbscanOuter (neigh : List (List ℕ)) (minSamples fuel : ℕ) :
    List ℕ → List ℤ → ℤ → List ℤ
  | [], labels, _ => labels
  | i :: rest, labels, labelNum =>
    if labels.getD i 0 ≠ -1 ∨ isCorePt neigh minSamples i = false then
      dbscanOuter neigh minSamples fuel rest labels labelNum
    else
      dbscanOuter neigh minSamples fuel rest
        (dfsLoop neigh (isCorePt neigh minSamples) labelNum fuel labels i []) (labelNum + 1)

/-- Modelled from the external sklearn collaborator: DBSCAN.fit over
a list of points under a neighborhood predicate.  Labels start at -1
(noise) and clusters are numbered 0, 1, ... in discovery order; the
result has one label per input point. -/
def dbscanLabels {d : ℕ} (pts : List (QVec d)) (nb : QVec d → QVec d → Bool)
    (minSamples : ℕ) : List ℤ :=
  let n := pts.length
  let neigh := neighborhoodsOf pts nb
  dbscanOuter neigh minSamples (n * n + n + 1) (List.range n) (List.replicate n (-1)) 0

/-- The ValueError cases of the sklearn DBSCAN fit relied on by
cluster_videos: parameter validation rejects eps <= 0 and
min_samples < 1, and check_array rejects an input with zero samples
(np.array of an empty list is not even a 2-D array). -/
inductive ClusterError where
  | invalidParameters
  | emptySamples
deriving DecidableEq

/-- cluster_videos (lines 145-164): order-preserving association list
in place of the Python dict; DBSCAN with the cosine metric; the
returned mapping zips the filenames with the fitted labels. -/
def cluster_videos {d : ℕ} (m : List (String × QVec d)) (eps : ℚ) (minSamples : ℕ) :
    Except ClusterError (List (String × ℤ)) :=
  if eps ≤ 0 ∨ minSamples = 0 then .error .invalidParameters
  else if (m.map Prod.snd).isEmpty then .error .emptySamples
  else .ok ((m.map Prod.fst).zip (dbscanLabels (m.map Prod.snd) (cosNeighbor eps) minSamples))

/-- Python format f with 02d: zero-pad to width two; the sign of a
negative number counts toward the width. -/
def pad2 (n : ℤ) : String := if 0 ≤ n ∧ n < 10 then "0" ++ toString n else toString n

/-- Folder name for one cluster id (lines 191-197): Unknown for -1,
otherwise Dancer_ followed by the zero-padded successor of the id. -/
def dirFor (cid : ℤ) : String := if cid = -1 then "Unknown" else "Dancer_" ++ pad2 (cid + 1)

/-- The pure folder plan of organize_videos (lines 167-217): error
files go to Error first, then every clustered file goes to the folder
of its cluster id. -/
def organizePlan (assignments : List (String × ℤ)) (errorFiles : List String) :
    List (String × String) :=
  errorFiles.map (fun f => (f, "Error")) ++ assignments.map (fun p => (p.1, dirFor p.2))

/-- Written from the words of the specification, for claim C2:
1-based ordinal of a label among the distinct non-negative labels
present, numbered by ascending value. -/
def ordinalOf (labels : List ℤ) (L : ℤ) : ℤ :=
  ((((labels.filter (fun x => 0 ≤ x)).dedup).filter (fun x => x < L)).length : ℤ) + 1

/-- Written from the words of the specification, for claim C2: folder
identifier demanded by the spec for one label. -/
def specDirFor (labels : List ℤ) (L : ℤ) : String :=
  if L = -1 then "Unknown" else "Dancer_" ++ pad2 (ordinalOf labels L)

/-- Written from the words of the specification, for claim C2: the
folder plan the spec describes for the Assignment Resolver. -/
def specResolve (assignments : List (String × ℤ)) (errorFiles : List String) :
    List (String × String) :=
  errorFiles.map (fun f => (f, "Error")) ++
    assignments.map (fun p => (p.1, specDirFor (assignments.map Prod.snd) p.2))

/-! Helper lemmas. -/

theorem pyint_eq_floor (q : ℚ) (h : 0 ≤ q) : pyint q = ⌊q⌋ := if_pos h

theorem mem_intRange {a b idx : ℤ} (h : idx ∈ intRange a b) : a ≤ idx ∧ idx < b := by
  unfold intRange at h
  obtain ⟨i, hi, rfl⟩ := List.mem_map.mp h
  have hlt := List.mem_range.mp hi
  omega

/-- Claim C3: the frame sampler of extract_frames computes exactly the
index sequence described by the specification: with
start = floor(totalFrames * skip) and
end = floor(totalFrames * (1 - skip)), it returns every integer in
[start, end) when end - start is below the sample count, and
otherwise the indices floor(start + i * (end - start) / sampleCount)
for i below sampleCount; being a pure function of
(totalFrames, sampleCount, skipFraction), it involves no randomness. -/
theorem c3_sampler_matches_spec (totalFrames numFrames : ℕ) (skip : ℚ)
    (h10 : 10 ≤ totalFrames) (hn : 0 < numFrames) (h0 : 0 ≤ skip) (h1 : skip ≤ 1) :
    frameIndices totalFrames numFrames skip = specSample totalFrames numFrames skip := by
  have hs : (0 : ℚ) ≤ (totalFrames : ℚ) * skip := by positivity
  have he : (0 : ℚ) ≤ (totalFrames : ℚ) * (1 - skip) := by
    have h1' : (0 : ℚ) ≤ 1 - skip := by linarith
    positivity
  simp only [frameIndices, specSample, pyint_eq_floor _ hs, pyint_eq_floor _ he]
  split
  · rfl
  · next hcond =>
    apply List.map_congr_left
    intro i _
    apply pyint_eq_floor
    have hst : (0 : ℚ) ≤ (⌊(totalFrames : ℚ) * skip⌋ : ℚ) := by
      exact_mod_cast Int.floor_nonneg.mpr hs
    have hu : (0 : ℤ) ≤ ⌊(totalFrames : ℚ) * (1 - skip)⌋ - ⌊(totalFrames : ℚ) * skip⌋ := by
      have := not_lt.mp hcond
      omega
    have hu' : (0 : ℚ) ≤ ((⌊(totalFrames : ℚ) * (1 - skip)⌋ - ⌊(totalFrames : ℚ) * skip⌋ : ℤ) : ℚ) := by
      exact_mod_cast hu
    have hn' : (0 : ℚ) ≤ (numFrames : ℚ) := Nat.cast_nonneg numFrames
    have hi' : (0 : ℚ) ≤ (i : ℚ) := Nat.cast_nonneg i
    exact add_nonneg hst (mul_nonneg hi' (div_nonneg hu' hn'))

/-- Claim C3 witness at totalFrames = 100, sampleCount = 20,
skipFraction = 1/10. -/
theorem c3_witness :
    (10 ≤ 100 ∧ 0 < 20 ∧ (0 : ℚ) ≤ 1 / 10 ∧ (1 / 10 : ℚ) ≤ 1) ∧
    frameIndices 100 20 (1 / 10) = specSample 100 20 (1 / 10) :=
  ⟨⟨by decide, by decide, by norm_num, by norm_num⟩,
   c3_sampler_matches_spec 100 20 (1 / 10) (by decide) (by decide) (by norm_num) (by norm_num)⟩

theorem frameIndices_bounds (totalFrames numFrames : ℕ) (skip : ℚ)
    (hn : 0 < numFrames) (h0 : 0 ≤ skip) (h1 : skip ≤ 1) :
    ∀ idx ∈ frameIndices totalFrames numFrames skip,
      ⌊(totalFrames : ℚ) * skip⌋ ≤ idx ∧ idx < ⌊(totalFrames : ℚ) * (1 - skip)⌋ := by
  intro idx hidx
  have hs : (0 : ℚ) ≤ (totalFrames : ℚ) * skip := by positivity
  have he : (0 : ℚ) ≤ (totalFrames : ℚ) * (1 - skip) := by
    have hss : (0 : ℚ) ≤ 1 - skip := by linarith
    positivity
  simp only [frameIndices, pyint_eq_floor _ hs, pyint_eq_floor _ he] at hidx
  set S : ℤ := ⌊(totalFrames : ℚ) * skip⌋ with hSdef
  set E : ℤ := ⌊(totalFrames : ℚ) * (1 - skip)⌋ with hEdef
  split at hidx
  · exact mem_intRange hidx
  · next hcond =>
    obtain ⟨i, hi, rfl⟩ := List.mem_map.mp hidx
    have hin : (numFrames : ℤ) ≤ E - S := not_lt.mp hcond
    have hS0 : (0 : ℤ) ≤ S := Int.floor_nonneg.mpr hs
    have hNpos : (0 : ℚ) < (numFrames : ℚ) := by exact_mod_cast hn
    have hUN : (numFrames : ℚ) ≤ ((E - S : ℤ) : ℚ) := by exact_mod_cast hin
    have hstep1 : (1 : ℚ) ≤ ((E - S : ℤ) : ℚ) / (numFrames : ℚ) := (one_le_div hNpos).mpr hUN
    have hstep0 : (0 : ℚ) ≤ ((E - S : ℤ) : ℚ) / (numFrames : ℚ) := le_trans zero_le_one hstep1
    have hi0 : (0 : ℚ) ≤ (i : ℚ) := Nat.cast_nonneg i
    have hSq : (0 : ℚ) ≤ (S : ℚ) := by exact_mod_cast hS0
    have harg0 : (0 : ℚ) ≤ (S : ℚ) + (i : ℚ) * (((E - S : ℤ) : ℚ) / (numFrames : ℚ)) :=
      add_nonneg hSq (mul_nonneg hi0 hstep0)
    rw [pyint_eq_floor _ harg0]
    constructor
    · exact Int.le_floor.mpr (le_add_of_nonneg_right (mul_nonneg hi0 hstep0))
    · apply Int.floor_lt.mpr
      have hiN : (i : ℚ) ≤ (numFrames : ℚ) - 1 := by
        have hilt := List.mem_range.mp hi
        have hq : (i : ℚ) + 1 ≤ (numFrames : ℚ) := by exact_mod_cast Nat.succ_le_of_lt hilt
        linarith
      have hNst : (numFrames : ℚ) * (((E - S : ℤ) : ℚ) / (numFrames : ℚ)) = ((E - S : ℤ) : ℚ) :=
        mul_div_cancel₀ _ (ne_of_gt hNpos)
      have h2 : (i : ℚ) * (((E - S : ℤ) : ℚ) / (numFrames : ℚ)) ≤
          ((numFrames : ℚ) - 1) * (((E - S : ℤ) : ℚ) / (numFrames : ℚ)) :=
        mul_le_mul_of_nonneg_right hiN hstep0
      have h3 : ((numFrames : ℚ) - 1) * (((E - S : ℤ) : ℚ) / (numFrames : ℚ)) =
          ((E - S : ℤ) : ℚ) - ((E - S : ℤ) : ℚ) / (numFrames : ℚ) := by
        rw [sub_mul, one_mul, hNst]
      have hES : ((E - S : ℤ) : ℚ) = (E : ℚ) - (S : ℚ) := by push_cast; ring
      linarith [h2, h3, hstep1, hES]

/-- Claim C6: for every video of at least 10 frames, every index the
frame sampler returns lies inside the usable interval
[floor(totalFrames * skip), floor(totalFrames * (1 - skip))) at the
configured skip fraction. -/
theorem c6_indices_in_bounds (totalFrames numFrames : ℕ)
    (h10 : 10 ≤ totalFrames) (hn : 0 < numFrames) :
    ∀ idx ∈ frameIndices totalFrames numFrames SKIP_PERCENT,
      ⌊(totalFrames : ℚ) * SKIP_PERCENT⌋ ≤ idx ∧
        idx < ⌊(totalFrames : ℚ) * (1 - SKIP_PERCENT)⌋ :=
  frameIndices_bounds totalFrames numFrames SKIP_PERCENT hn
    (by norm_num [SKIP_PERCENT]) (by norm_num [SKIP_PERCENT])

/-- Claim C6 witness: at totalFrames = 10 the sampler takes the dense
branch and index 1 obeys the bounds. -/
theorem c6_witness :
    (10 ≤ 10 ∧ 0 < 20) ∧
    ⌊(10 : ℚ) * SKIP_PERCENT⌋ ≤ 1 ∧ (1 : ℤ) < ⌊(10 : ℚ) * (1 - SKIP_PERCENT)⌋ := by
  refine ⟨⟨by decide, by decide⟩, ?_⟩
  have hmem : (1 : ℤ) ∈ frameIndices 10 20 SKIP_PERCENT := by
    have h : frameIndices 10 20 SKIP_PERCENT = [1, 2, 3, 4, 5, 6, 7, 8] := by
      norm_num [frameIndices, pyint, SKIP_PERCENT, intRange]
      decide
    rw [h]; decide
  exact c6_indices_in_bounds 10 20 (by decide) (by decide) 1 hmem

/-- Claim C5: a video with fewer than 10 frames makes extract_frames
raise the insufficient-frames ValueError (when the video opens at
all), and compute_video_fingerprint turns this into the absent
fingerprint instead of propagating the exception. -/
theorem c5_short_video {Frame : Type} {d : ℕ} (detect : Frame → DetectOutcome d)
    (v : Video Frame) (h : v.totalFrames < 10) :
    (v.canOpen = true → extract_frames v = .error .insufficientFrames) ∧
    compute_video_fingerprint detect v = none := by
  constructor
  · intro hopen
    simp [extract_frames, hopen, h]
  · cases hco : v.canOpen
    · simp [compute_video_fingerprint, extract_frames, hco]
    · simp [compute_video_fingerprint, extract_frames, hco, h]

/-- Claim C5 witness: a 5-frame openable video. -/
theorem c5_witness :
    extract_frames (⟨true, 5, fun _ => none⟩ : Video Unit) =
      .error .insufficientFrames ∧
    compute_video_fingerprint (fun _ : Unit => DetectOutcome.failure (d := 1))
      (⟨true, 5, fun _ => none⟩ : Video Unit) = none :=
  ⟨(c5_short_video (fun _ : Unit => DetectOutcome.failure (d := 1))
      (⟨true, 5, fun _ => none⟩ : Video Unit) (by decide)).1 rfl,
   (c5_short_video (fun _ : Unit => DetectOutcome.failure (d := 1))
      (⟨true, 5, fun _ => none⟩ : Video Unit) (by decide)).2⟩

theorem pickLargest_spec {d : ℕ} (rs : List (FaceResult d)) (b : FaceResult d) :
    pickLargest b rs ∈ b :: rs ∧
    (∀ x ∈ b :: rs, faceArea x ≤ faceArea (pickLargest b rs)) ∧
    (b :: rs).find? (fun x => decide (faceArea (pickLargest b rs) ≤ faceArea x)) =
      some (pickLargest b rs) := by
  induction rs generalizing b with
  | nil =>
    refine ⟨List.mem_singleton_self b, ?_, ?_⟩
    · intro x hx
      rw [List.mem_singleton.mp hx]
      exact le_refl _
    · simp [pickLargest]
  | cons x xs ih =>
    have hfold : pickLargest b (x :: xs) =
        pickLargest (if faceArea b < faceArea x then x else b) xs := rfl
    by_cases hlt : faceArea b < faceArea x
    · rw [hfold, if_pos hlt]
      obtain ⟨hmem, hbd, hfind⟩ := ih x
      have hxc : faceArea x ≤ faceArea (pickLargest x xs) :=
        hbd x (List.mem_cons_self x xs)
      have hbc : faceArea b < faceArea (pickLargest x xs) := lt_of_lt_of_le hlt hxc
      refine ⟨List.mem_cons_of_mem b hmem, ?_, ?_⟩
      · intro y hy
        rcases List.mem_cons.mp hy with rfl | hy'
        · exact le_of_lt hbc
        · exact hbd y hy'
      · have hb : decide (faceArea (pickLargest x xs) ≤ faceArea b) = false :=
          decide_eq_false (not_le.mpr hbc)
        simp only [List.find?_cons, hb]
        exact hfind
    · rw [hfold, if_neg hlt]
      obtain ⟨hmem, hbd, hfind⟩ := ih b
      have hxb : faceArea x ≤ faceArea b := not_lt.mp hlt
      have hbc : faceArea b ≤ faceArea (pickLargest b xs) :=
        hbd b (List.mem_cons_self b xs)
      refine ⟨?_, ?_, ?_⟩
      · rcases List.mem_cons.mp hmem with hc | hc
        · rw [hc]; exact List.mem_cons_self b (x :: xs)
        · exact List.mem_cons_of_mem b (List.mem_cons_of_mem x hc)
      · intro y hy
        rcases List.mem_cons.mp hy with rfl | hy'
        · exact hbc
        · rcases List.mem_cons.mp hy' with rfl | hy''
          · exact le_trans hxb hbc
          · exact hbd y (List.mem_cons_of_mem b hy'')
      · by_cases hpb : faceArea (pickLargest b xs) ≤ faceArea b
        · have hbt : decide (faceArea (pickLargest b xs) ≤ faceArea b) = true :=
            decide_eq_true hpb
          have hcb : pickLargest b xs = b := by
            simp only [List.find?_cons, hbt] at hfind
            exact (Option.some.inj hfind).symm
          have hself : decide (faceArea b ≤ faceArea b) = true := decide_eq_true (le_refl _)
          simp only [List.find?_cons, hbt, hcb, hself]
        · have hbf : decide (faceArea (pickLargest b xs) ≤ faceArea b) = false :=
            decide_eq_false hpb
          have hblt : faceArea b < faceArea (pickLargest b xs) := not_le.mp hpb
          have hxf : decide (faceArea (pickLargest b xs) ≤ faceArea x) = false :=
            decide_eq_false (not_le.mpr (lt_of_le_of_lt hxb hblt))
          simp only [List.find?_cons, hbf] at hfind
          simp only [List.find?_cons, hbf, hxf]
          exact hfind

/-- Claim C7: on a frame whose detection list is nonempty, the
extractor returns the embedding of the detection with maximal
bounding-box area, and the selected detection is the first detection
of maximal area in detector order (the find? equation states that a
scan for an area at least as large stops exactly there). -/
theorem c7_largest_face {Frame : Type} {d : ℕ} (detect : Frame → DetectOutcome d)
    (fr : Frame) (r : FaceResult d) (rs : List (FaceResult d))
    (h : detect fr = .results (r :: rs)) :
    get_largest_face_embedding detect fr = some (pickLargest r rs).embedding ∧
    pickLargest r rs ∈ r :: rs ∧
    (∀ x ∈ r :: rs, faceArea x ≤ faceArea (pickLargest r rs)) ∧
    (r :: rs).find? (fun x => decide (faceArea (pickLargest r rs) ≤ faceArea x)) =
      some (pickLargest r rs) := by
  refine ⟨?_, (pickLargest_spec rs r).1, (pickLargest_spec rs r).2.1,
    (pickLargest_spec rs r).2.2⟩
  simp [get_largest_face_embedding, h]

/-- Claim C7 witness: two detections, the first with area 4, the
second with area 3. -/
theorem c7_witness :
    get_largest_face_embedding
      (fun _ : Unit => DetectOutcome.results
        [⟨⟨0, 0, 2, 2⟩, fun _ => (1 : ℚ)⟩, ⟨⟨0, 0, 1, 3⟩, fun _ => 2⟩]) () =
      some (pickLargest (⟨⟨0, 0, 2, 2⟩, fun _ => (1 : ℚ)⟩ : FaceResult 1)
        [⟨⟨0, 0, 1, 3⟩, fun _ => 2⟩]).embedding ∧
    faceArea (⟨⟨0, 0, 1, 3⟩, fun _ => 2⟩ : FaceResult 1) ≤
      faceArea (pickLargest (⟨⟨0, 0, 2, 2⟩, fun _ => (1 : ℚ)⟩ : FaceResult 1)
        [⟨⟨0, 0, 1, 3⟩, fun _ => 2⟩]) :=
  ⟨(c7_largest_face
      (fun _ : Unit => DetectOutcome.results
        [⟨⟨0, 0, 2, 2⟩, fun _ => (1 : ℚ)⟩, ⟨⟨0, 0, 1, 3⟩, fun _ => 2⟩]) ()
      ⟨⟨0, 0, 2, 2⟩, fun _ => (1 : ℚ)⟩ [⟨⟨0, 0, 1, 3⟩, fun _ => 2⟩] rfl).1,
   (c7_largest_face
      (fun _ : Unit => DetectOutcome.results
        [⟨⟨0, 0, 2, 2⟩, fun _ => (1 : ℚ)⟩, ⟨⟨0, 0, 1, 3⟩, fun _ => 2⟩]) ()
      ⟨⟨0, 0, 2, 2⟩, fun _ => (1 : ℚ)⟩ [⟨⟨0, 0, 1, 3⟩, fun _ => 2⟩] rfl).2.2.1 _
     (List.mem_cons_of_mem _ (List.mem_cons_self _ _))⟩

/-- Claim C8: a detector exception and an empty detection list are
both mapped to the absent embedding, and a frame whose extraction is
absent contributes nothing while the remaining frames are still
processed: dropping it from the frame list leaves the collected
embeddings unchanged. -/
theorem c8_failure_absorbed {Frame : Type} {d : ℕ} (detect : Frame → DetectOutcome d)
    (fr : Frame) :
    (detect fr = .failure → get_largest_face_embedding detect fr = none) ∧
    (detect fr = .results [] → get_largest_face_embedding detect fr = none) ∧
    (∀ (pre post : List Frame) (bad : Frame),
      get_largest_face_embedding detect bad = none →
      (pre ++ bad :: post).filterMap (get_largest_face_embedding detect) =
        (pre ++ post).filterMap (get_largest_face_embedding detect)) := by
  refine ⟨?_, ?_, ?_⟩
  · intro h; simp [get_largest_face_embedding, h]
  · intro h; simp [get_largest_face_embedding, h]
  · intro pre post bad hbad
    simp [List.filterMap_append, List.filterMap_cons, hbad]

/-- Claim C8 witness: a detector that always raises; the failing
frame 0 is absorbed and the frames around it are still processed. -/
theorem c8_witness :
    get_largest_face_embedding (fun _ : ℕ => DetectOutcome.failure (d := 1)) 0 = none ∧
    ([1, 0, 2] : List ℕ).filterMap
        (get_largest_face_embedding (fun _ : ℕ => DetectOutcome.failure (d := 1))) =
      ([1, 2] : List ℕ).filterMap
        (get_largest_face_embedding (fun _ : ℕ => DetectOutcome.failure (d := 1))) :=
  ⟨(c8_failure_absorbed (fun _ : ℕ => DetectOutcome.failure (d := 1)) 0).1 rfl,
   (c8_failure_absorbed (fun _ : ℕ => DetectOutcome.failure (d := 1)) 0).2.2 [1] [2] 0
     ((c8_failure_absorbed (fun _ : ℕ => DetectOutcome.failure (d := 1)) 0).1 rfl)⟩

/-- Claim C9: the fingerprint is absent exactly when the collected
embedding list is empty (sampling failed or no sampled frame yielded
a face); in particular an extractor that is absent on every sampled
frame forces an absent fingerprint. -/
theorem c9_absent_iff_no_embeddings {Frame : Type} {d : ℕ}
    (detect : Frame → DetectOutcome d) (v : Video Frame) :
    (compute_video_fingerprint detect v = none ↔ collectedEmbeddings detect v = []) ∧
    ((∀ fr ∈ sampledFrames v, get_largest_face_embedding detect fr = none) →
      compute_video_fingerprint detect v = none) := by
  have hiff : compute_video_fingerprint detect v = none ↔
      collectedEmbeddings detect v = [] := by
    cases hx : extract_frames v with
    | error e =>
      simp [compute_video_fingerprint, collectedEmbeddings, sampledFrames, hx]
    | ok frames =>
      cases hl : frames.filterMap (get_largest_face_embedding detect) with
      | nil =>
        simp [compute_video_fingerprint, collectedEmbeddings, sampledFrames, hx,
          buildFromEmbeddings, hl]
      | cons a as =>
        simp [compute_video_fingerprint, collectedEmbeddings, sampledFrames, hx,
          buildFromEmbeddings, hl]
  refine ⟨hiff, fun habs => hiff.mpr ?_⟩
  exact List.filterMap_eq_nil_iff.mpr habs

/-- Claim C9 witness: a readable 100-frame video whose detector
always raises gives an absent fingerprint. -/
theorem c9_witness :
    compute_video_fingerprint (fun _ : Unit => DetectOutcome.failure (d := 1))
      (⟨true, 100, fun _ => some ()⟩ : Video Unit) = none :=
  (c9_absent_iff_no_embeddings (fun _ : Unit => DetectOutcome.failure (d := 1))
    (⟨true, 100, fun _ => some ()⟩ : Video Unit)).2 (fun _ _ => rfl)

/-- Claim C4: whenever the fingerprint is present it is the
L2-normalized arithmetic mean of the collected embeddings: its norm
is 1 unless the raw mean has norm exactly zero, in which case the
mean is the zero vector and is returned verbatim. -/
theorem c4_fingerprint_normalized {d : ℕ} (l : List (QVec d)) (v : RVec d)
    (h : buildFromEmbeddings l = some v) :
    v = normalizeVec (meanVec l) ∧
    (sqNorm (meanVec l) = 0 →
      meanVec l = (fun _ => 0) ∧ v = fun i => ((meanVec l i : ℚ) : ℝ)) ∧
    (sqNorm (meanVec l) ≠ 0 → norm2R v = 1) := by
  have hv : v = normalizeVec (meanVec l) := by
    cases l with
    | nil => simp [buildFromEmbeddings] at h
    | cons a as =>
      simp only [buildFromEmbeddings] at h
      exact (Option.some.inj h).symm
  subst hv
  refine ⟨rfl, ?_, ?_⟩
  · intro h0
    constructor
    · funext i
      have hterm : (meanVec l i) ^ 2 = 0 := by
        have hnn : ∀ j ∈ (Finset.univ : Finset (Fin d)), (0 : ℚ) ≤ (meanVec l j) ^ 2 :=
          fun j _ => sq_nonneg _
        exact (Finset.sum_eq_zero_iff_of_nonneg hnn).mp h0 i (Finset.mem_univ i)
      exact (pow_eq_zero_iff two_ne_zero).mp hterm
    · simp [normalizeVec, h0]
  · intro hne
    have hpos : 0 < sqNorm (meanVec l) :=
      lt_of_le_of_ne (Finset.sum_nonneg (fun i _ => sq_nonneg _)) (Ne.symm hne)
    have hS : (0 : ℝ) < ((sqNorm (meanVec l) : ℚ) : ℝ) := by exact_mod_cast hpos
    simp only [normalizeVec, if_pos hpos, norm2R]
    have hsum : ∑ i, ((meanVec l i : ℝ) / Real.sqrt ((sqNorm (meanVec l) : ℝ))) ^ 2 = 1 := by
      have hterm : ∀ i : Fin d,
          ((meanVec l i : ℝ) / Real.sqrt ((sqNorm (meanVec l) : ℝ))) ^ 2 =
            ((meanVec l i : ℝ)) ^ 2 / ((sqNorm (meanVec l) : ℚ) : ℝ) := by
        intro i
        rw [div_pow, Real.sq_sqrt hS.le]
      rw [Finset.sum_congr rfl (fun i _ => hterm i), ← Finset.sum_div]
      have hcast : (∑ i, ((meanVec l i : ℝ)) ^ 2) = ((sqNorm (meanVec l) : ℚ) : ℝ) := by
        rw [sqNorm]
        push_cast
        ring
      rw [hcast, div_self (ne_of_gt hS)]
    rw [hsum, Real.sqrt_one]

/-- Claim C4 witness: the single embedding (1) in dimension 1 gives a
present fingerprint of norm 1. -/
theorem c4_witness :
    sqNorm (meanVec [(fun _ => 1 : QVec 1)]) ≠ 0 ∧
    norm2R (normalizeVec (meanVec [(fun _ => 1 : QVec 1)])) = 1 := by
  have hne : sqNorm (meanVec [(fun _ => 1 : QVec 1)]) ≠ 0 := by
    simp [sqNorm, meanVec]
  exact ⟨hne,
    (c4_fingerprint_normalized [(fun _ => 1 : QVec 1)]
      (normalizeVec (meanVec [(fun _ => 1 : QVec 1)])) rfl).2.2 hne⟩

/-! Length preservation of the DBSCAN model, for claim C10. -/

theorem dfsStep_fst_length (neigh : List (List ℕ)) (core : ℕ → Bool) (labelNum : ℤ)
    (labels : List ℤ) (i : ℕ) (stack : List ℕ) :
    (dfsStep neigh core labelNum labels i stack).1.length = labels.length := by
  unfold dfsStep
  split
  · split
    · simp
    · simp
  · rfl

theorem dfsLoop_length (neigh : List (List ℕ)) (core : ℕ → Bool) (labelNum : ℤ)
    (fuel : ℕ) :
    ∀ (labels : List ℤ) (i : ℕ) (stack : List ℕ),
      (dfsLoop neigh core labelNum fuel labels i stack).length = labels.length := by
  induction fuel with
  | zero => intro labels i stack; rfl
  | succ n ih =>
    intro labels i stack
    have hstep := dfsStep_fst_length neigh core labelNum labels i stack
    rcases hs : dfsStep neigh core labelNum labels i stack with ⟨l2, s2⟩
    rw [hs] at hstep
    cases s2 with
    | nil => simp only [dfsLoop, hs]; exact hstep
    | cons j rest =>
      simp only [dfsLoop, hs]
      rw [ih l2 j rest]
      exact hstep

theorem dbscanOuter_length (neigh : List (List ℕ)) (ms fuel : ℕ) :
    ∀ (idxs : List ℕ) (labels : List ℤ) (labelNum : ℤ),
      (dbscanOuter neigh ms fuel idxs labels labelNum).length = labels.length := by
  intro idxs
  induction idxs with
  | nil => intro labels labelNum; rfl
  | cons i rest ih =>
    intro labels labelNum
    simp only [dbscanOuter]
    split
    · exact ih labels labelNum
    · rw [ih _ _]
      exact dfsLoop_length neigh (isCorePt neigh ms) labelNum fuel labels i []

theorem dbscanLabels_length {d : ℕ} (pts : List (QVec d))
    (nb : QVec d → QVec d → Bool) (ms : ℕ) :
    (dbscanLabels pts nb ms).length = pts.length := by
  unfold dbscanLabels
  rw [dbscanOuter_length]
  exact List.length_replicate _ _

/-- Claim C10: on a non-empty fingerprint map (with the valid DBSCAN
parameters the pipeline uses), cluster_videos returns a mapping whose
keys are exactly the input keys, in order, so every fingerprinted
video receives exactly one integer label and no other keys appear. -/
theorem c10_cluster_keys {d : ℕ} (m : List (String × QVec d)) (eps : ℚ) (k : ℕ)
    (hm : m ≠ []) (heps : 0 < eps) (hk : 0 < k) :
    ∃ r, cluster_videos m eps k = .ok r ∧ r.map Prod.fst = m.map Prod.fst := by
  have h1 : ¬(eps ≤ 0 ∨ k = 0) := by
    push_neg
    exact ⟨heps, Nat.pos_iff_ne_zero.mp hk⟩
  have h2 : (m.map Prod.snd).isEmpty = false := by
    cases m with
    | nil => exact absurd rfl hm
    | cons a as => rfl
  refine ⟨(m.map Prod.fst).zip (dbscanLabels (m.map Prod.snd) (cosNeighbor eps) k),
    ?_, ?_⟩
  · rw [cluster_videos, if_neg h1, if_neg (by rw [h2]; exact Bool.false_ne_true)]
  · apply List.map_fst_zip
    rw [dbscanLabels_length, List.length_map, List.length_map]

/-- Claim C10 witness: a one-entry fingerprint map keeps its key. -/
theorem c10_witness :
    (cluster_videos [(("a" : String), (fun _ => 1 : QVec 1))] (2 / 5) 1).map
      (fun r => r.map Prod.fst) = .ok ["a"] := by
  obtain ⟨r, h1, h2⟩ := c10_cluster_keys [(("a" : String), (fun _ => 1 : QVec 1))]
    (2 / 5) 1 (List.cons_ne_nil _ _) (by norm_num) (by decide)
  rw [h1]
  simp only [Except.map]
  rw [h2]
  rfl

/-- Claim C1 counterexample: on the empty fingerprint map,
cluster_videos does not return a mapping at all: the DBSCAN fit
rejects an input with zero samples, so the call raises. -/
theorem c1_counterexample :
    cluster_videos ([] : List (String × QVec 1)) (2 / 5) 1 = .error .emptySamples := by
  rw [cluster_videos, if_neg (by norm_num)]
  rfl

/-- Claim C1 (amended): for every eps and min_samples accepted by the
DBSCAN parameter validation, cluster_videos on the empty fingerprint
map propagates the zero-samples error instead of returning an empty
mapping; the caller in main special-cases the empty map and never
reaches the clustering step with it. -/
theorem c1_amended_empty_errors {d : ℕ} (eps : ℚ) (k : ℕ)
    (heps : 0 < eps) (hk : 0 < k) :
    cluster_videos ([] : List (String × QVec d)) eps k = .error .emptySamples := by
  have h1 : ¬(eps ≤ 0 ∨ k = 0) := by
    push_neg
    exact ⟨heps, Nat.pos_iff_ne_zero.mp hk⟩
  rw [cluster_videos, if_neg h1]
  rfl

/-- Claim C1 witness at the default parameters eps = 0.4,
min_samples = 1. -/
theorem c1_witness :
    (0 : ℚ) < 2 / 5 ∧
    cluster_videos ([] : List (String × QVec 1)) (2 / 5) 1 = .error .emptySamples :=
  ⟨by norm_num, c1_amended_empty_errors (2 / 5) 1 (by norm_num) (by decide)⟩

/-! Resolver lemmas for claim C2. -/

theorem range_filter_length (k : ℕ) (L : ℤ) (h0 : 0 ≤ L) (hk : L < (k : ℤ)) :
    (((List.range k).map (fun (n : ℕ) => (n : ℤ))).filter
      (fun x => decide (x < L))).length = L.toNat := by
  induction k with
  | zero => omega
  | succ n ih =>
    rw [List.range_succ, List.map_append, List.filter_append, List.length_append]
    by_cases hn : L < (n : ℤ)
    · rw [ih hn]
      have hlast : (([(n : ℤ)]).filter (fun x => decide (x < L))).length = 0 := by
        simp only [List.map_cons, List.map_nil, List.filter, decide_eq_true_eq]
        rw [decide_eq_false (by omega : ¬ ((n : ℤ) < L))]
        rfl
      simp only [List.map_cons, List.map_nil] at hlast ⊢
      omega
    · have hLn : L = (n : ℤ) := by omega
      have hall : ((List.range n).map (fun (m : ℕ) => (m : ℤ))).filter
          (fun x => decide (x < L)) = (List.range n).map (fun (m : ℕ) => (m : ℤ)) := by
        apply List.filter_eq_self.mpr
        intro a ha
        obtain ⟨m, hm, rfl⟩ := List.mem_map.mp ha
        have := List.mem_range.mp hm
        simp only [decide_eq_true_eq]
        omega
      rw [hall]
      have hlast : (([(n : ℤ)]).filter (fun x => decide (x < L))).length = 0 := by
        simp only [List.filter, decide_eq_true_eq]
        rw [decide_eq_false (by omega : ¬ ((n : ℤ) < L))]
        rfl
      simp only [List.map_cons, List.map_nil] at hlast ⊢
      rw [List.length_map, List.length_range]
      omega

theorem ordinal_contig (k : ℕ) (L : ℤ) (h0 : 0 ≤ L) (hk : L < (k : ℤ)) :
    ordinalOf ((List.range k).map (fun (n : ℕ) => (n : ℤ))) L = L + 1 := by
  unfold ordinalOf
  have h1 : ((List.range k).map (fun (n : ℕ) => (n : ℤ))).filter
      (fun x => decide (0 ≤ x)) = (List.range k).map (fun (n : ℕ) => (n : ℤ)) := by
    apply List.filter_eq_self.mpr
    intro a ha
    obtain ⟨m, hm, rfl⟩ := List.mem_map.mp ha
    simp
  have h2 : ((List.range k).map (fun (n : ℕ) => (n : ℤ))).dedup =
      (List.range k).map (fun (n : ℕ) => (n : ℤ)) := by
    apply List.dedup_eq_self.mpr
    exact (List.nodup_range k).map (fun a b hab => by exact_mod_cast hab)
  rw [h1, h2, range_filter_length k L h0 hk]
  omega

/-- Claim C2 counterexample: on the cluster assignment with labels
0 and 2 (and no error videos), the code sends label 2 to folder
Dancer_03 (direct label arithmetic), while the claimed ordinal rule
demands Dancer_02, so the plans differ. -/
theorem c2_counterexample :
    organizePlan [("a", 0), ("b", 2)] [] ≠ specResolve [("a", 0), ("b", 2)] [] := by
  decide

/-- Claim C2 (amended): every error video maps to Error and label -1
maps to Unknown as claimed, but a non-negative label L maps to
Dancer_pad2(L + 1) computed from the label value itself, not from its
ordinal among the labels present; the two rules coincide (and the
claimed bijection with Dancer_01..Dancer_NN in ascending order holds)
exactly on contiguous label sets 0..NN-1, which is what the DBSCAN
collaborator emits. -/
theorem c2_amended_resolver (a : List (String × ℤ)) (e : List String) :
    (∀ f ∈ e, (f, "Error") ∈ organizePlan a e) ∧
    (∀ f L, (f, L) ∈ a → (f, dirFor L) ∈ organizePlan a e) ∧
    dirFor (-1) = "Unknown" ∧
    (∀ L : ℤ, 0 ≤ L → dirFor L = "Dancer_" ++ pad2 (L + 1)) ∧
    (∀ (k : ℕ) (L : ℤ), 0 ≤ L → L < (k : ℤ) →
      specDirFor ((List.range k).map (fun (n : ℕ) => (n : ℤ))) L = dirFor L) := by
  refine ⟨?_, ?_, rfl, ?_, ?_⟩
  · intro f hf
    exact List.mem_append_left _ (List.mem_map.mpr ⟨f, hf, rfl⟩)
  · intro f L hfl
    exact List.mem_append_right _ (List.mem_map.mpr ⟨(f, L), hfl, rfl⟩)
  · intro L hL
    rw [dirFor, if_neg (by omega)]
  · intro k L h0 hk
    rw [specDirFor, dirFor, if_neg (by omega), if_neg (by omega),
      ordinal_contig k L h0 hk]

/-- Claim C2 witness: one error video, one video with label 3, and
the contiguity coincidence at k = 5, L = 3. -/
theorem c2_witness :
    ("e1", "Error") ∈ organizePlan [("v", 3)] ["e1"] ∧
    ("v", dirFor 3) ∈ organizePlan [("v", 3)] ["e1"] ∧
    dirFor (-1) = "Unknown" ∧
    dirFor 3 = "Dancer_" ++ pad2 4 ∧
    specDirFor ((List.range 5).map (fun (n : ℕ) => (n : ℤ))) 3 = dirFor 3 :=
  ⟨(c2_amended_resolver [("v", 3)] ["e1"]).1 "e1" (by decide),
   (c2_amended_resolver [("v", 3)] ["e1"]).2.1 "v" 3 (by decide),
   (c2_amended_resolver [("v", 3)] ["e1"]).2.2.1,
   (c2_amended_resolver [("v", 3)] ["e1"]).2.2.2.1 3 (by decide),
   (c2_amended_resolver [("v", 3)] ["e1"]).2.2.2.2 5 3 (by decide) (by decide)⟩

end Fancam
